import Mathlib

/-!
Verification development for the ComposeGenie template-generator service.

The definitions below shallowly embed the TemplateService of the
template-generator microservice (templateService.js): the per-variable
validator (validateVariable), the aggregated validator (validateTemplate),
the required-variable check used by the generation path
(validateTemplateVariables), the Handlebars-based rendering step, the
generated-YAML structural check (validateDockerComposeYaml), and the
stateful operations generateDockerCompose and getTemplateById together
with the usage-counter side effects.

External libraries (Handlebars, js-yaml, the JS RegExp engine) are embedded
on the fragment of their behaviour that the service exercises; each such
definition carries a comment describing the modelled fragment.
-/

/-- JSON-shaped runtime values, the tagged-union embedding of the
dynamically typed variable values the service receives (JS has no NaN in
JSON input, so numbers are modelled as integers). -/
inductive Value where
  | null
  | bool (b : Bool)
  | num (n : Int)
  | str (s : String)
  | arr (elems : List Value)
  | obj (fields : List (String × Value))

/-- The optional constraint block of a variable specification, mirroring
the validation subdocument of the Template schema
(pattern, minLength, maxLength, minimum, maximum, enum). -/
structure ValidationSpec where
  pattern : Option String := none
  minLength : Option Nat := none
  maxLength : Option Nat := none
  minimum : Option Int := none
  maximum : Option Int := none
  enum : Option (List String) := none
deriving DecidableEq

/-- The declared type tag of a template variable
(enum of the Template schema variables.type field). -/
inductive VarType where
  | string
  | number
  | boolean
  | array
  | object
deriving DecidableEq

/-- One variable specification of a template, as stored in the
Template schema variables array. -/
structure VariableSpec where
  name : String
  type : VarType
  required : Bool := false
  defaultValue : Option Value := none
  validation : ValidationSpec := {}

/-- The caller-supplied variable map (a JS object: name to value). -/
abbrev VarMap := List (String × Value)

/-- Result record of validateVariable: isValid plus the optional
human-readable message attached on failure. -/
structure VarCheck where
  isValid : Bool
  message : Option String := none
deriving DecidableEq

/-- The success record returned by validateVariable. -/
def okCheck : VarCheck := { isValid := true }

/-- Shorthand for a failed VarCheck carrying a message. -/
def invalidMsg (m : String) : VarCheck := { isValid := false, message := some m }

/-- Characters with no metacharacter meaning in a JS regular expression.
Patterns built only from these compile to a plain literal matcher. -/
def plainRegexChar (c : Char) : Bool :=
  c.isAlphanum || c = '_' || c = '-' || c = ':' || c = ' ' || c = '/'

/-- True when the pattern string lies in the metacharacter-free fragment
of JS regular expressions that this development models. -/
def litPattern (p : String) : Bool :=
  p.toList.all plainRegexChar

/-- Model of the JS RegExp constructor on the modelled fragment: a
metacharacter-free pattern compiles to itself (a literal matcher); any
pattern outside the fragment is modelled as a compilation failure, as the
constructor raises SyntaxError on malformed patterns such as a lone
opening bracket. -/
def jsRegexCompile (p : String) : Option String :=
  if litPattern p then some p else none

/-- Boolean list-prefix test used by the substring search below. -/
def prefixOfL : List Char → List Char → Bool
  | [], _ => true
  | _ :: _, [] => false
  | a :: as, b :: bs => a = b && prefixOfL as bs

/-- Boolean substring-occurrence test on character lists. -/
def infixOfL (p : List Char) : List Char → Bool
  | [] => p.isEmpty
  | c :: rest => prefixOfL p (c :: rest) || infixOfL p rest

/-- Model of RegExp.test for a literal (metacharacter-free) pattern: the
test succeeds when the pattern occurs anywhere in the value, a substring
search, not a full-string match. -/
def substrOccurs (p v : String) : Bool :=
  infixOfL p.toList v.toList

/-- Full-match semantics of a literal (metacharacter-free) pattern: the
entire value is the pattern. This is the reading used by the
specification when it says the whole value must match the pattern. -/
def litFullMatch (p v : String) : Bool :=
  v = p

/-- Final enum membership check of the string case of validateVariable,
mirroring the truthiness guard on validation.enum (a present empty list
is truthy in JS and rejects every value). -/
def stringEnumCheck (v : ValidationSpec) (s : String) : VarCheck :=
  match v.enum with
  | some es => if es.contains s then okCheck else invalidMsg ("Must be one of: " ++ String.intercalate ", " es)
  | none => okCheck

/-- Maximum bound check of the number case of validateVariable, run when
validation.maximum is defined (the source tests with a strict
undefined-check, so a zero bound is still enforced). -/
def numberMaxCheck (v : ValidationSpec) (n : Int) : VarCheck :=
  match v.maximum with
  | some m => if m < n then invalidMsg ("Must be no more than " ++ toString m) else okCheck
  | none => okCheck

/-- Embedding of TemplateService.validateVariable. The switch on the
declared type, the order of the constraint checks, the truthiness guards
on minLength, maxLength and pattern, and the undefined-checks on minimum
and maximum follow the source. The RegExp construction inside the string
case can raise, which the Except error constructor records. -/
def validateVariable (cfg : VariableSpec) (value : Value) : Except String VarCheck :=
  let v := cfg.validation
  match cfg.type with
  | VarType.string =>
    match value with
    | Value.str s =>
      if v.minLength.getD 0 ≠ 0 ∧ s.length < v.minLength.getD 0 then
        Except.ok (invalidMsg ("Must be at least " ++ toString (v.minLength.getD 0) ++ " characters"))
      else if v.maxLength.getD 0 ≠ 0 ∧ v.maxLength.getD 0 < s.length then
        Except.ok (invalidMsg ("Must be no more than " ++ toString (v.maxLength.getD 0) ++ " characters"))
      else
        match v.pattern with
        | some p =>
          if p = "" then
            Except.ok (stringEnumCheck v s)
          else
            match jsRegexCompile p with
            | none => Except.error "SyntaxError: Invalid regular expression"
            | some q =>
              if substrOccurs q s then Except.ok (stringEnumCheck v s)
              else Except.ok (invalidMsg "Invalid format")
        | none => Except.ok (stringEnumCheck v s)
    | _ => Except.ok (invalidMsg "Must be a string")
  | VarType.number =>
    match value with
    | Value.num n =>
      match v.minimum with
      | some m =>
        if n < m then Except.ok (invalidMsg ("Must be at least " ++ toString m))
        else Except.ok (numberMaxCheck v n)
      | none => Except.ok (numberMaxCheck v n)
    | _ => Except.ok (invalidMsg "Must be a valid number")
  | VarType.boolean =>
    match value with
    | Value.bool _ => Except.ok okCheck
    | _ => Except.ok (invalidMsg "Must be true or false")
  | VarType.array =>
    match value with
    | Value.arr _ => Except.ok okCheck
    | _ => Except.ok (invalidMsg "Must be an array")
  | VarType.object =>
    match value with
    | Value.obj _ => Except.ok okCheck
    | _ => Except.ok (invalidMsg "Must be an object")

/-- Whitespace characters for the trimming helpers. -/
def isWsChar (c : Char) : Bool :=
  c = ' ' || c = '\t' || c = '\r' || c = '\n'

/-- Trim whitespace from both ends of a character list. -/
def trimList (l : List Char) : List Char :=
  ((l.dropWhile isWsChar).reverse.dropWhile isWsChar).reverse

/-- Trim whitespace from the right end of a character list. -/
def trimRightList (l : List Char) : List Char :=
  (l.reverse.dropWhile isWsChar).reverse

/-- HTML escaping of one character as performed by the default Handlebars
mustache expansion (Handlebars.escapeExpression). -/
def hbEscapeChar (c : Char) : String :=
  if c = '&' then "&amp;"
  else if c = '<' then "&lt;"
  else if c = '>' then "&gt;"
  else if c = '"' then "&quot;"
  else if c = Char.ofNat 39 then "&#x27;"
  else if c = Char.ofNat 96 then "&#x60;"
  else if c = '=' then "&#x3D;"
  else String.singleton c

/-- HTML escaping of a string, applied by Handlebars to every substituted
value of a double-mustache placeholder. -/
def hbEscape (s : String) : String :=
  String.join (s.toList.map hbEscapeChar)

mutual

/-- Textual form of a substituted value, following the JS toString
conventions Handlebars relies on: strings verbatim, numbers and booleans
canonically, null and undefined as the empty string, arrays joined with
commas, plain objects as the standard object placeholder text. -/
def valueToString : Value → String
  | Value.null => ""
  | Value.bool b => if b then "true" else "false"
  | Value.num n => toString n
  | Value.str s => s
  | Value.arr xs => valueListToString xs
  | Value.obj _ => "[object Object]"

/-- Comma-joined textual form of an array value (JS Array toString). -/
def valueListToString : List Value → String
  | [] => ""
  | [x] => valueToString x
  | x :: y :: rest => valueToString x ++ "," ++ valueListToString (y :: rest)

end

/-- Resolution of one recognized placeholder name against the variable
map: a present variable renders as its escaped textual form, an absent
one renders as the empty string (Handlebars default, non-strict mode). -/
def hbSubst (ctx : VarMap) (name : String) : String :=
  match ctx.lookup name with
  | some v => hbEscape (valueToString v)
  | none => ""

/-- Simple identifier accepted inside a mustache by the modelled
Handlebars fragment. -/
def hbIdentChar (c : Char) : Bool :=
  c.isAlphanum || c = '_'

/-- Valid placeholder name: a letter or underscore followed by
identifier characters. -/
def hbIdent (s : String) : Bool :=
  match s.toList with
  | [] => false
  | c :: cs => (c.isAlpha || c = '_') && cs.all hbIdentChar

/-- One-pass scanner embedding Handlebars compile-and-apply on the
fragment the templates use: literal text, double-mustache placeholders
with optional inner whitespace, and the parse failures the compiler
raises on an unterminated or malformed mustache. The first argument is
none while scanning literal text and carries the reversed accumulated
placeholder characters while inside a mustache. -/
def hbRun (ctx : VarMap) : Option (List Char) → List Char → Except String (List Char)
  | none, [] => Except.ok []
  | none, [c] => Except.ok [c]
  | none, c1 :: c2 :: rest =>
    if c1 = '{' ∧ c2 = '{' then
      hbRun ctx (some []) rest
    else
      match hbRun ctx none (c2 :: rest) with
      | Except.ok out => Except.ok (c1 :: out)
      | Except.error e => Except.error e
  | some _, [] => Except.error "Parse error: unterminated placeholder"
  | some _, [_] => Except.error "Parse error: unterminated placeholder"
  | some acc, c1 :: c2 :: rest =>
    if c1 = '}' ∧ c2 = '}' then
      let name := String.mk (trimList acc.reverse)
      if hbIdent name then
        match hbRun ctx none rest with
        | Except.ok out => Except.ok ((hbSubst ctx name).toList ++ out)
        | Except.error e => Except.error e
      else Except.error "Parse error: invalid placeholder expression"
    else hbRun ctx (some (c1 :: acc)) (c2 :: rest)

/-- Embedding of the rendering step of the service: the Handlebars
compile of templateContent followed by application to the raw caller
variable map, as generateDockerCompose and validateTemplate both do. -/
def hbCompileRender (body : String) (ctx : VarMap) : Except String String :=
  match hbRun ctx none body.toList with
  | Except.ok out => Except.ok (String.mk out)
  | Except.error e => Except.error e

/-- Parsed YAML documents, restricted to the shapes the structural check
inspects: null, booleans, integers, strings and block mappings. -/
inductive Yaml where
  | null
  | bool (b : Bool)
  | num (n : Int)
  | str (s : String)
  | map (entries : List (String × Yaml))

/-- Split a character list into lines at newline characters. -/
def splitLinesL : List Char → List (List Char)
  | [] => [[]]
  | c :: rest =>
    if c = '\n' then [] :: splitLinesL rest
    else
      match splitLinesL rest with
      | [] => [[c]]
      | l :: ls => (c :: l) :: ls

/-- Split a line at the first colon-space separator, when present. -/
def splitColonSpace : List Char → Option (List Char × List Char)
  | [] => none
  | [_] => none
  | c1 :: c2 :: rest =>
    if c1 = ':' ∧ c2 = ' ' then some ([], rest)
    else
      match splitColonSpace (c2 :: rest) with
      | some (a, b) => some (c1 :: a, b)
      | none => none

/-- Decimal digits of a character list folded into a natural number. -/
def parseNatDigits (l : List Char) : Nat :=
  l.foldl (fun a c => a * 10 + (c.toNat - 48)) 0

/-- Integer literal parser for plain YAML scalars. -/
def parseIntL : List Char → Option Int
  | '-' :: rest =>
    if rest ≠ [] ∧ rest.all Char.isDigit then some (-(parseNatDigits rest : Int)) else none
  | l =>
    if l ≠ [] ∧ l.all Char.isDigit then some ((parseNatDigits l : Int)) else none

/-- True when the list is a scalar enclosed in the given quote mark. -/
def isQuotedBy (q : Char) (t : List Char) : Bool :=
  2 ≤ t.length && t.head? = some q && t.getLast? = some q

/-- Plain or quoted YAML scalar of the modelled fragment. Floating point
scalars are kept as strings; this changes no truthiness outcome, since a
nonzero textual number is truthy either way. -/
def parseScalar (t : List Char) : Yaml :=
  let s := String.mk t
  if t = [] then Yaml.null
  else if s = "null" || s = "~" then Yaml.null
  else if s = "true" then Yaml.bool true
  else if s = "false" then Yaml.bool false
  else if isQuotedBy '"' t then Yaml.str (String.mk ((t.drop 1).dropLast))
  else if isQuotedBy (Char.ofNat 39) t then Yaml.str (String.mk ((t.drop 1).dropLast))
  else
    match parseIntL t with
    | some n => Yaml.num n
    | none => Yaml.str s

/-- One mapping line of a YAML block: its key and, when present, its
inline scalar value. Follows js-yaml on the modelled fragment: a plain
scalar value may not contain a further colon-space separator and may not
end with a colon, and such lines make the document fail to parse. -/
def parseEntry (line : List Char) : Option (String × Option Yaml) :=
  let l := trimRightList line
  match splitColonSpace l with
  | some (k, v) =>
    let key := trimList k
    if key = [] then none
    else
      let vt := trimList v
      if (splitColonSpace vt).isSome then none
      else if vt.getLast? = some ':' then none
      else if vt = [] then some (String.mk key, none)
      else some (String.mk key, some (parseScalar vt))
  | none =>
    if l.getLast? = some ':' then
      let key := trimList l.dropLast
      if key = [] then none else some (String.mk key, none)
    else none

/-- Remove a fixed indentation from every line of a nested block; fails
when some line is less indented than the block requires. -/
def stripIndent (n : Nat) (lines : List (List Char)) : Option (List (List Char)) :=
  if lines.all (fun l => n ≤ (l.takeWhile (fun c => c = ' ')).length) then
    some (lines.map (fun l => l.drop n))
  else none

/-- Block-mapping parser of the modelled YAML fragment. The fuel argument
only bounds recursion depth; every call from yamlLoad supplies at least
the number of lines, which the consumption of one line per step makes
sufficient, so the fuel-exhausted branch is unreachable there. -/
def parseBlockF : Nat → List (List Char) → Option (List (String × Yaml))
  | _, [] => some []
  | 0, _ :: _ => none
  | Nat.succ fuel, line :: rest =>
    if line.head? = some ' ' then none
    else
      let sub := rest.takeWhile (fun l => l.head? = some ' ')
      let remaining := rest.dropWhile (fun l => l.head? = some ' ')
      match parseEntry line with
      | none => none
      | some (key, inlineVal) =>
        match inlineVal, sub with
        | some v, [] =>
          match parseBlockF fuel remaining with
          | some es => some ((key, v) :: es)
          | none => none
        | some _, _ :: _ => none
        | none, [] =>
          match parseBlockF fuel remaining with
          | some es => some ((key, Yaml.null) :: es)
          | none => none
        | none, s1 :: srest =>
          let ind := (s1.takeWhile (fun c => c = ' ')).length
          match stripIndent ind (s1 :: srest) with
          | none => none
          | some stripped =>
            match parseBlockF fuel stripped with
            | none => none
            | some subEs =>
              match parseBlockF fuel remaining with
              | some es => some ((key, Yaml.map subEs) :: es)
              | none => none

/-- Embedding of yaml.load on the modelled fragment: blank lines are
ignored, an empty document loads as null, a single scalar line loads as a
scalar, and otherwise the document is a block mapping. A none result
models a js-yaml parse exception. -/
def yamlLoad (s : String) : Option Yaml :=
  let lines := (splitLinesL s.toList).filter (fun l => trimList l ≠ [])
  match lines with
  | [] => some Yaml.null
  | [l] =>
    if l.head? = some ' ' then none
    else
      match parseEntry l with
      | some _ => (parseBlockF 1 [l]).map Yaml.map
      | none =>
        if (splitColonSpace (trimRightList l)).isSome then none
        else some (parseScalar (trimList l))
  | l :: _ :: _ =>
    if l.head? = some ' ' then none
    else (parseBlockF lines.length lines).map Yaml.map

/-- JS truthiness of a parsed YAML value (null, false, zero and the empty
string are falsy; mappings are truthy). -/
def jsTruthyY : Yaml → Bool
  | Yaml.null => false
  | Yaml.bool b => b
  | Yaml.num n => n != 0
  | Yaml.str s => s ≠ ""
  | Yaml.map _ => true

/-- True when the parsed root is a mapping (the only parsed shape of the
model whose JS typeof is object). -/
def isYamlObject : Yaml → Bool
  | Yaml.map _ => true
  | _ => false

/-- Field access on a parsed root (undefined on non-mappings). -/
def yamlField (y : Yaml) (k : String) : Option Yaml :=
  match y with
  | Yaml.map es => es.lookup k
  | _ => none

/-- JS truthiness of a field access: absent fields are undefined and
falsy. -/
def truthyField (y : Yaml) (k : String) : Bool :=
  match yamlField y k with
  | some v => jsTruthyY v
  | none => false

/-- Embedding of TemplateService.validateDockerComposeYaml: load the
rendered text, raise on a parse failure, on a falsy or non-object root,
and when both the version field and the services field are falsy. -/
def validateDockerComposeYaml (content : String) : Except String Unit :=
  match yamlLoad content with
  | none => Except.error "Invalid Docker Compose YAML"
  | some parsed =>
    if jsTruthyY parsed = false then Except.error "Invalid YAML structure"
    else if isYamlObject parsed = false then Except.error "Invalid YAML structure"
    else if truthyField parsed "version" = false ∧ truthyField parsed "services" = false then
      Except.error "Missing required Docker Compose fields (version or services)"
    else Except.ok ()

/-- One error entry of a ValidationReport; varName embeds the variable
key attached to invalid_variable entries. -/
structure ValError where
  type : String
  message : String
  details : List String := []
  varName : Option String := none
deriving DecidableEq

/-- The aggregated report returned by TemplateService.validateTemplate. -/
structure ValidationReport where
  isValid : Bool
  errors : List ValError
  warnings : List ValError := []
deriving DecidableEq

/-- Names of the required variables absent from a variable map
(the filter-and-map of the missing-variables step). -/
def missingRequired (vars : List VariableSpec) (m : VarMap) : List String :=
  (vars.filter (fun v => v.required && (m.lookup v.name).isNone)).map (fun v => v.name)

/-- The single aggregated missing_variables error. -/
def mvError (names : List String) : ValError :=
  { type := "missing_variables", message := "Required variables are missing", details := names }

/-- The invalid_variable error appended for one offending variable. -/
def invError (name : String) (msg : String) : ValError :=
  { type := "invalid_variable", message := msg, varName := some name }

/-- The per-variable loop of validateTemplate: every declared variable
present in the map is validated independently and every failure appends
one invalid_variable error; a raised exception from validateVariable
propagates. -/
def variableErrors (vars : List VariableSpec) (m : VarMap) : Except String (List ValError) :=
  match vars with
  | [] => Except.ok []
  | spec :: rest =>
    match m.lookup spec.name with
    | some value =>
      match validateVariable spec value with
      | Except.error e => Except.error e
      | Except.ok c =>
        match variableErrors rest m with
        | Except.error e => Except.error e
        | Except.ok others =>
          if c.isValid then Except.ok others
          else Except.ok (invError spec.name (c.message.getD "") :: others)
    | none => variableErrors rest m

/-- The compile-and-check step shared by the generation path and the
final stage of validateTemplate: Handlebars render followed by the
structural YAML check. -/
def tryCompile (body : String) (m : VarMap) : Except String String :=
  match hbCompileRender body m with
  | Except.error e => Except.error e
  | Except.ok out =>
    match validateDockerComposeYaml out with
    | Except.error e => Except.error e
    | Except.ok _ => Except.ok out

/-- Template documents as the core reads them: the parameterized body,
the variable specifications, the visibility gates and the usage
counters. -/
structure Usage where
  downloadCount : Nat := 0
  lastUsed : Option Nat := none
  ratingAverage : Int := 0
  ratingCount : Nat := 0
deriving DecidableEq

structure TemplateDoc where
  templateContent : String
  vars : List VariableSpec
  isPublic : Bool := true
  isActive : Bool := true
  usage : Usage := {}

/-- Embedding of the validation core of TemplateService.validateTemplate
for an accessible template: the aggregated missing_variables error, the
per-variable invalid_variable errors, and, only when no error was
collected, the compile-and-check attempt whose failure is reported as a
template_compilation error. -/
def validateTemplateCore (t : TemplateDoc) (m : VarMap) : Except String ValidationReport :=
  let missing := missingRequired t.vars m
  let missingErrs := if missing = [] then [] else [mvError missing]
  match variableErrors t.vars m with
  | Except.error e => Except.error e
  | Except.ok varErrs =>
    let errors := missingErrs ++ varErrs
    if errors = [] then
      match tryCompile t.templateContent m with
      | Except.ok _ => Except.ok { isValid := true, errors := [] }
      | Except.error msg =>
        Except.ok { isValid := false, errors := [{ type := "template_compilation", message := "Template compilation failed", details := [msg] }] }
    else Except.ok { isValid := false, errors := errors }

/-- Error taxonomy of the generation path. notFound covers the absent,
private and inactive cases, variableValidation carries the aggregated
list of missing-variable messages, compileError models a raised
Handlebars compilation failure, invalidYaml the structural check
failure, and jsError an uncaught runtime exception such as an invalid
regular expression raised inside validateTemplate. -/
inductive TemplateErr where
  | notFound
  | variableValidation (errors : List String)
  | compileError (msg : String)
  | invalidYaml (msg : String)
  | jsError (msg : String)
deriving DecidableEq

/-- The messages collected by validateTemplateVariables, one per absent
required variable. -/
def requiredErrors (vars : List VariableSpec) (m : VarMap) : List String :=
  (missingRequired vars m).map (fun n => "Required variable " ++ n ++ " is missing")

/-- Embedding of TemplateService.validateTemplateVariables: only the
required-variable presence check, raising with the aggregated message
list when any required variable is absent. -/
def validateTemplateVariables (t : TemplateDoc) (m : VarMap) : Except TemplateErr Unit :=
  let errors := requiredErrors t.vars m
  if errors = [] then Except.ok () else Except.error (TemplateErr.variableValidation errors)

/-- The pure pipeline of generateDockerCompose once an accessible
template is in hand: required-variable check, Handlebars render on the
raw caller map, then the structural YAML check. -/
def generatePure (t : TemplateDoc) (m : VarMap) : Except TemplateErr String :=
  match validateTemplateVariables t m with
  | Except.error e => Except.error e
  | Except.ok _ =>
    match hbCompileRender t.templateContent m with
    | Except.error e => Except.error (TemplateErr.compileError e)
    | Except.ok out =>
      match validateDockerComposeYaml out with
      | Except.error e => Except.error (TemplateErr.invalidYaml e)
      | Except.ok _ => Except.ok out

/-- The template store plus a clock supplying timestamps, the state the
stateful operations thread. -/
structure ServiceState where
  store : List (String × TemplateDoc)
  now : Nat := 0

/-- The usage-counter side effect: increment the download count of the
stored template and stamp its last-used time (incrementDownloadCount of
the Template model). -/
def bumpUsage (id : String) (s : ServiceState) : ServiceState :=
  { s with
    store := s.store.map (fun p =>
      if p.1 = id then
        (p.1, { p.2 with usage := { p.2.usage with
          downloadCount := p.2.usage.downloadCount + 1,
          lastUsed := some s.now } })
      else p) }

/-- Embedding of TemplateService.getTemplateById: an absent, private or
inactive template reads as null with no effect; a successful read
returns the fetched document and fires the usage-counter update. -/
def getTemplateById (id : String) (s : ServiceState) : Option TemplateDoc × ServiceState :=
  match s.store.lookup id with
  | none => (none, s)
  | some t =>
    if t.isPublic && t.isActive then (some t, bumpUsage id s)
    else (none, s)

/-- Embedding of TemplateService.generateDockerCompose: load and gate the
template, run the pure pipeline, and only after full success fire the
usage-counter update and return the rendered text. -/
def generateDockerCompose (id : String) (m : VarMap) (s : ServiceState) :
    Except TemplateErr String × ServiceState :=
  match s.store.lookup id with
  | none => (Except.error TemplateErr.notFound, s)
  | some t =>
    if t.isPublic && t.isActive then
      match generatePure t m with
      | Except.ok out => (Except.ok out, bumpUsage id s)
      | Except.error e => (Except.error e, s)
    else (Except.error TemplateErr.notFound, s)

/-- Embedding of TemplateService.validateTemplate as a stateful
operation: load and gate the template, then run the validation core;
no state change on any path. -/
def validateTemplateOp (id : String) (m : VarMap) (s : ServiceState) :
    Except TemplateErr ValidationReport × ServiceState :=
  match s.store.lookup id with
  | none => (Except.error TemplateErr.notFound, s)
  | some t =>
    if t.isPublic && t.isActive then
      match validateTemplateCore t m with
      | Except.ok r => (Except.ok r, s)
      | Except.error e => (Except.error (TemplateErr.jsError e), s)
    else (Except.error TemplateErr.notFound, s)

/-- Satisfaction of a declared type and constraint set, parameterized by
the semantics given to a declared pattern. -/
def specSatisfiesWith (patOk : String → String → Bool) (spec : VariableSpec) (value : Value) : Bool :=
  let v := spec.validation
  match spec.type, value with
  | VarType.string, Value.str s =>
    (match v.pattern with | some p => patOk p s | none => true) &&
    (match v.minLength with | some m => decide (m ≤ s.length) | none => true) &&
    (match v.maxLength with | some m => decide (s.length ≤ m) | none => true) &&
    (match v.enum with | some es => es.contains s | none => true)
  | VarType.string, _ => false
  | VarType.number, Value.num n =>
    (match v.minimum with | some m => decide (m ≤ n) | none => true) &&
    (match v.maximum with | some m => decide (n ≤ m) | none => true)
  | VarType.number, _ => false
  | VarType.boolean, Value.bool _ => true
  | VarType.boolean, _ => false
  | VarType.array, Value.arr _ => true
  | VarType.array, _ => false
  | VarType.object, Value.obj _ => true
  | VarType.object, _ => false

/-- Satisfaction in the sense of the specification wording: a declared
pattern must be matched by the ENTIRE value (full match). -/
def specSatisfies (spec : VariableSpec) (value : Value) : Bool :=
  specSatisfiesWith litFullMatch spec value

/-- Satisfaction in the sense the source validator actually enforces: a
declared pattern only needs to occur somewhere in the value (substring
search). -/
def specSatisfiesSub (spec : VariableSpec) (value : Value) : Bool :=
  specSatisfiesWith substrOccurs spec value

/-- True when a declared variable is present in the map and its value is
rejected by the per-variable validator (without raising). -/
def offends (m : VarMap) (spec : VariableSpec) : Bool :=
  match m.lookup spec.name with
  | some v =>
    match validateVariable spec v with
    | Except.ok c => !c.isValid
    | Except.error _ => false
  | none => false

/-- The failure message the per-variable validator attaches to an
offending variable. -/
def offenderMsg (m : VarMap) (spec : VariableSpec) : String :=
  match m.lookup spec.name with
  | some v =>
    match validateVariable spec v with
    | Except.ok c => c.message.getD ""
    | Except.error _ => ""
  | none => ""

/-- Alternative characterization of the invalid_variable error list: one
entry per offending declared variable, in declaration order, each
carrying the variable name. -/
def invalidErrorsSpec (vars : List VariableSpec) (m : VarMap) : List ValError :=
  (vars.filter (offends m)).map (fun spec => invError spec.name (offenderMsg m spec))

/-- Character lists free of brace characters, the literal fragment the
renderer copies through unchanged. -/
def braceFreeL (l : List Char) : Bool :=
  l.all (fun c => c != '{' && c != '}')

/-- Single-quote character, kept as a code point to build scenario
strings containing quoted YAML scalars. -/
def sqc : String := String.singleton (Char.ofNat 39)

/-- The template body of the image-tag scenario of the specification. -/
def c2Body : String :=
  "version: " ++ sqc ++ "3.8" ++ sqc ++ "\nservices:\n  app:\n    image: {{image}}:{{tag}}"

/-- Variable specifications of the image-tag scenario: image required,
tag optional with default latest. -/
def c2Specs : List VariableSpec :=
  [{ name := "image", type := VarType.string, required := true },
   { name := "tag", type := VarType.string, required := false, defaultValue := some (Value.str "latest") }]

/-- The stored template of the image-tag scenario. -/
def c2Template : TemplateDoc := { templateContent := c2Body, vars := c2Specs }

/-- The caller map of the image-tag scenario: only image supplied. -/
def c2Vars : VarMap := [("image", Value.str "nginx")]

/-- The text the renderer actually produces on the image-tag scenario:
the unsupplied tag renders as the empty string, leaving image: nginx:
with nothing after the colon. -/
def c2Out : String :=
  "version: " ++ sqc ++ "3.8" ++ sqc ++ "\nservices:\n  app:\n    image: nginx:"

/-- A one-template store holding the image-tag scenario template. -/
def c2State : ServiceState := { store := [("tpl", c2Template)] }

/-- A string spec declaring the literal pattern a, used by several
counterexamples. -/
def specPatternA : VariableSpec :=
  { name := "x", type := VarType.string, validation := { pattern := some "a" } }

/-- A string spec whose stored pattern is an invalid regular expression
(a lone opening bracket). -/
def specBadPattern : VariableSpec :=
  { name := "x", type := VarType.string, validation := { pattern := some "[" } }

/-- A template holding the single pattern-a variable and a body with no
placeholders that passes the structural check. -/
def c1Template : TemplateDoc := { templateContent := "version: ok", vars := [specPatternA] }

/-- The caller map supplying ba for the pattern-a variable. -/
def c1Map : VarMap := [("x", Value.str "ba")]

/-- The aggregation scenario: two missing required variables plus one
supplied number violating its declared minimum. -/
def c5Template : TemplateDoc :=
  { templateContent := "version: 2",
    vars := [{ name := "a", type := VarType.string, required := true },
             { name := "b", type := VarType.string, required := true },
             { name := "port", type := VarType.number,
               validation := { minimum := some 1024, maximum := some 65535 } }] }

/-- The aggregation scenario map: only the offending port supplied. -/
def c5Map : VarMap := [("port", Value.num 80)]

/-- The out-of-range port spec of the generation counterexample. -/
def c4PortSpec : VariableSpec :=
  { name := "port", type := VarType.number,
    validation := { minimum := some 1024, maximum := some 65535 } }

/-- The number-variable template of the generation counterexample. -/
def c4Template : TemplateDoc :=
  { templateContent := "version: {{port}}", vars := [c4PortSpec] }

/-- The generation counterexample map: port below its declared minimum. -/
def c4Map : VarMap := [("port", Value.num 80)]

/-- A one-template store holding the number-variable template. -/
def c4State : ServiceState := { store := [("t4", c4Template)] }

/-- A template with an empty variable list used by the usage-counter
counterexample and witness. -/
def c9Template : TemplateDoc := { templateContent := "version: 2", vars := [] }

/-- A one-template store whose clock reads 5. -/
def c9State : ServiceState := { store := [("t", c9Template)], now := 5 }

theorem substrOccurs_empty (s : String) : substrOccurs "" s = true := by
  unfold substrOccurs
  cases s.toList with
  | nil => rfl
  | cons c rest => rfl

theorem okCheck_isValid : okCheck.isValid = true := rfl

theorem invalidMsg_isValid (m : String) : (invalidMsg m).isValid = false := rfl

/-- Soundness of the string case of the per-variable validator: a value
it accepts occurs-matches any declared pattern, meets a declared minimum
length, meets any declared nonzero maximum length, and belongs to any
declared enum. -/
theorem vv_string_case (nm : String) (rq : Bool) (dv : Option Value) (v : ValidationSpec)
    (s : String) (c : VarCheck)
    (h : validateVariable { name := nm, type := VarType.string, required := rq, defaultValue := dv, validation := v } (Value.str s) = Except.ok c)
    (hv : c.isValid = true) :
    (∀ p, v.pattern = some p → substrOccurs p s = true) ∧
    (∀ n, v.minLength = some n → n ≤ s.length) ∧
    (∀ n, v.maxLength = some n → n ≠ 0 → s.length ≤ n) ∧
    (∀ es, v.enum = some es → es.contains s = true) := by
  obtain ⟨pat, minL, maxL, minI, maxI, en⟩ := v
  simp only [validateVariable] at h
  split at h
  case isTrue hmin =>
    exact absurd (congrArg VarCheck.isValid (Except.ok.inj h).symm) (by simp [invalidMsg, hv])
  case isFalse hmin =>
    split at h
    case isTrue hmax =>
      exact absurd (congrArg VarCheck.isValid (Except.ok.inj h).symm) (by simp [invalidMsg, hv])
    case isFalse hmax =>
      have hminC : ∀ n, (some n : Option Nat) = minL → n ≤ s.length := by
        intro n hn
        rw [← hn] at hmin
        simp only [Option.getD_some] at hmin
        omega
      have hmaxC : ∀ n, (some n : Option Nat) = maxL → n ≠ 0 → s.length ≤ n := by
        intro n hn hn0
        rw [← hn] at hmax
        simp only [Option.getD_some] at hmax
        omega
      have henum : ∀ es, en = some es →
          stringEnumCheck ⟨pat, minL, maxL, minI, maxI, en⟩ s = c → es.contains s = true := by
        intro es hes hc
        subst hes
        simp only [stringEnumCheck] at hc
        by_cases hmem : es.contains s = true
        · exact hmem
        · rw [if_neg hmem] at hc
          have hfalse := congrArg VarCheck.isValid hc
          rw [hv] at hfalse
          simp [invalidMsg] at hfalse
      cases pat with
      | none =>
        dsimp only at h
        refine ⟨by intro p hpp; exact absurd hpp (by simp),
               fun n hn => hminC n hn.symm, fun n hn => hmaxC n hn.symm, ?_⟩
        intro es hes
        exact henum es hes (Except.ok.inj h)
      | some p =>
        dsimp only at h
        by_cases hpe : p = ""
        · rw [if_pos hpe] at h
          refine ⟨?_, fun n hn => hminC n hn.symm, fun n hn => hmaxC n hn.symm, ?_⟩
          · intro q hq
            cases Option.some.inj hq
            rw [hpe]
            exact substrOccurs_empty s
          · intro es hes
            exact henum es hes (Except.ok.inj h)
        · rw [if_neg hpe] at h
          cases hcomp : jsRegexCompile p with
          | none =>
            rw [hcomp] at h
            dsimp only at h
            exact absurd h (by simp)
          | some q =>
            rw [hcomp] at h
            dsimp only at h
            have hq : q = p := by
              unfold jsRegexCompile at hcomp
              by_cases hl : litPattern p = true
              · rw [if_pos hl] at hcomp
                exact (Option.some.inj hcomp).symm
              · rw [if_neg hl] at hcomp
                exact absurd hcomp (by simp)
            by_cases hocc : substrOccurs q s = true
            · rw [if_pos hocc] at h
              refine ⟨?_, fun n hn => hminC n hn.symm, fun n hn => hmaxC n hn.symm, ?_⟩
              · intro q2 hq2
                cases Option.some.inj hq2
                rw [← hq]
                exact hocc
              · intro es hes
                exact henum es hes (Except.ok.inj h)
            · rw [if_neg hocc] at h
              exact absurd (congrArg VarCheck.isValid (Except.ok.inj h).symm) (by simp [invalidMsg, hv])

theorem invalid_ok_contra {m : String} {c : VarCheck} (h : invalidMsg m = c)
    (hv : c.isValid = true) : False := by
  rw [← h] at hv
  simp [invalidMsg] at hv

/-- Full soundness of the per-variable validator with respect to the
substring reading of pattern constraints: any accepted value satisfies
its declared type and constraints, provided a declared maximum length is
nonzero (the source skips a zero maximum because zero is falsy in JS). -/
theorem validateVariable_sound (spec : VariableSpec) (value : Value) (c : VarCheck)
    (h : validateVariable spec value = Except.ok c) (hv : c.isValid = true)
    (hmax : spec.validation.maxLength ≠ some 0) :
    specSatisfiesSub spec value = true := by
  obtain ⟨nm, ty, rq, dv, v⟩ := spec
  cases ty with
  | string =>
    cases value with
    | str s =>
      have hs := vv_string_case nm rq dv v s c h hv
      obtain ⟨pat, minL, maxL, minI, maxI, en⟩ := v
      simp only [specSatisfiesSub, specSatisfiesWith, Bool.and_eq_true]
      refine ⟨⟨⟨?_, ?_⟩, ?_⟩, ?_⟩
      · cases pat with
        | none => rfl
        | some p => exact hs.1 p rfl
      · cases minL with
        | none => rfl
        | some n => exact decide_eq_true (hs.2.1 n rfl)
      · cases maxL with
        | none => rfl
        | some n =>
          have hn0 : n ≠ 0 := by
            intro h0
            exact hmax (by rw [h0])
          exact decide_eq_true (hs.2.2.1 n rfl hn0)
      · cases en with
        | none => rfl
        | some es => exact hs.2.2.2 es rfl
    | null =>
      simp only [validateVariable] at h
      exact (invalid_ok_contra (Except.ok.inj h) hv).elim
    | bool b =>
      simp only [validateVariable] at h
      exact (invalid_ok_contra (Except.ok.inj h) hv).elim
    | num n =>
      simp only [validateVariable] at h
      exact (invalid_ok_contra (Except.ok.inj h) hv).elim
    | arr xs =>
      simp only [validateVariable] at h
      exact (invalid_ok_contra (Except.ok.inj h) hv).elim
    | obj fs =>
      simp only [validateVariable] at h
      exact (invalid_ok_contra (Except.ok.inj h) hv).elim
  | number =>
    cases value with
    | num n =>
      obtain ⟨pat, minL, maxL, minI, maxI, en⟩ := v
      simp only [validateVariable] at h
      simp only [specSatisfiesSub, specSatisfiesWith]
      cases minI with
      | some m =>
        dsimp only at h
        by_cases hlt : n < m
        · rw [if_pos hlt] at h
          exact (invalid_ok_contra (Except.ok.inj h) hv).elim
        · rw [if_neg hlt] at h
          simp only [Bool.and_eq_true]
          refine ⟨decide_eq_true (by omega), ?_⟩
          simp only [numberMaxCheck] at h
          cases maxI with
          | some m2 =>
            dsimp only at h
            by_cases hgt : m2 < n
            · rw [if_pos hgt] at h
              exact (invalid_ok_contra (Except.ok.inj h) hv).elim
            · rw [if_neg hgt] at h
              exact decide_eq_true (by omega)
          | none => rfl
      | none =>
        dsimp only at h
        simp only [numberMaxCheck] at h
        simp only [Bool.and_eq_true]
        refine ⟨trivial, ?_⟩
        cases maxI with
        | some m2 =>
          dsimp only at h
          by_cases hgt : m2 < n
          · rw [if_pos hgt] at h
            exact (invalid_ok_contra (Except.ok.inj h) hv).elim
          · rw [if_neg hgt] at h
            exact decide_eq_true (by omega)
        | none => rfl
    | null =>
      simp only [validateVariable] at h
      exact (invalid_ok_contra (Except.ok.inj h) hv).elim
    | bool b =>
      simp only [validateVariable] at h
      exact (invalid_ok_contra (Except.ok.inj h) hv).elim
    | str s =>
      simp only [validateVariable] at h
      exact (invalid_ok_contra (Except.ok.inj h) hv).elim
    | arr xs =>
      simp only [validateVariable] at h
      exact (invalid_ok_contra (Except.ok.inj h) hv).elim
    | obj fs =>
      simp only [validateVariable] at h
      exact (invalid_ok_contra (Except.ok.inj h) hv).elim
  | boolean =>
    cases value with
    | bool b => rfl
    | null =>
      simp only [validateVariable] at h
      exact (invalid_ok_contra (Except.ok.inj h) hv).elim
    | num n =>
      simp only [validateVariable] at h
      exact (invalid_ok_contra (Except.ok.inj h) hv).elim
    | str s =>
      simp only [validateVariable] at h
      exact (invalid_ok_contra (Except.ok.inj h) hv).elim
    | arr xs =>
      simp only [validateVariable] at h
      exact (invalid_ok_contra (Except.ok.inj h) hv).elim
    | obj fs =>
      simp only [validateVariable] at h
      exact (invalid_ok_contra (Except.ok.inj h) hv).elim
  | array =>
    cases value with
    | arr xs => rfl
    | null =>
      simp only [validateVariable] at h
      exact (invalid_ok_contra (Except.ok.inj h) hv).elim
    | num n =>
      simp only [validateVariable] at h
      exact (invalid_ok_contra (Except.ok.inj h) hv).elim
    | str s =>
      simp only [validateVariable] at h
      exact (invalid_ok_contra (Except.ok.inj h) hv).elim
    | bool b =>
      simp only [validateVariable] at h
      exact (invalid_ok_contra (Except.ok.inj h) hv).elim
    | obj fs =>
      simp only [validateVariable] at h
      exact (invalid_ok_contra (Except.ok.inj h) hv).elim
  | object =>
    cases value with
    | obj fs => rfl
    | null =>
      simp only [validateVariable] at h
      exact (invalid_ok_contra (Except.ok.inj h) hv).elim
    | num n =>
      simp only [validateVariable] at h
      exact (invalid_ok_contra (Except.ok.inj h) hv).elim
    | str s =>
      simp only [validateVariable] at h
      exact (invalid_ok_contra (Except.ok.inj h) hv).elim
    | bool b =>
      simp only [validateVariable] at h
      exact (invalid_ok_contra (Except.ok.inj h) hv).elim
    | arr xs =>
      simp only [validateVariable] at h
      exact (invalid_ok_contra (Except.ok.inj h) hv).elim

/-- An empty missing-variables list means every required declared
variable is present in the map. -/
theorem missingRequired_nil (vars : List VariableSpec) (m : VarMap)
    (h : missingRequired vars m = []) :
    ∀ spec ∈ vars, spec.required = true → (m.lookup spec.name).isSome = true := by
  intro spec hmem hreq
  unfold missingRequired at h
  have hf : vars.filter (fun v => v.required && (m.lookup v.name).isNone) = [] :=
    List.map_eq_nil_iff.mp h
  have hnp := List.filter_eq_nil_iff.mp hf spec hmem
  cases hl : m.lookup spec.name with
  | none =>
    rw [hl, hreq] at hnp
    simp at hnp
  | some v => rfl

/-- An empty invalid-variable error list means every declared variable
present in the map was accepted by the per-variable validator. -/
theorem variableErrors_ok_nil (vars : List VariableSpec) (m : VarMap)
    (h : variableErrors vars m = Except.ok []) :
    ∀ spec ∈ vars, ∀ value, m.lookup spec.name = some value →
      ∃ c, validateVariable spec value = Except.ok c ∧ c.isValid = true := by
  induction vars with
  | nil =>
    intro spec hmem
    exact absurd hmem (List.not_mem_nil spec)
  | cons v0 rest ih =>
    intro spec hmem value hval
    simp only [variableErrors] at h
    cases hl : m.lookup v0.name with
    | none =>
      rw [hl] at h
      dsimp only at h
      rcases List.mem_cons.mp hmem with heq | hmem2
      · subst heq
        exact absurd (hval.symm.trans hl) (by simp)
      · exact ih h spec hmem2 value hval
    | some v1 =>
      rw [hl] at h
      dsimp only at h
      cases hvv : validateVariable v0 v1 with
      | error e =>
        rw [hvv] at h
        exact absurd h (by simp)
      | ok c0 =>
        rw [hvv] at h
        dsimp only at h
        cases hre : variableErrors rest m with
        | error e =>
          rw [hre] at h
          exact absurd h (by simp)
        | ok others =>
          rw [hre] at h
          dsimp only at h
          by_cases hcv : c0.isValid = true
          · rw [if_pos hcv] at h
            have hoth : others = [] := Except.ok.inj h
            rcases List.mem_cons.mp hmem with heq | hmem2
            · subst heq
              have hv1 : v1 = value := Option.some.inj (hl.symm.trans hval)
              subst hv1
              exact ⟨c0, hvv, hcv⟩
            · rw [hoth] at hre
              exact ih hre spec hmem2 value hval
          · rw [if_neg hcv] at h
            exact absurd (Except.ok.inj h) (by simp)

/-- The invalid-variable error list built by the validation loop is
exactly one entry per offending declared variable, in declaration order,
each carrying the variable name and the validator message. -/
theorem variableErrors_ok_eq (vars : List VariableSpec) (m : VarMap) (ves : List ValError)
    (h : variableErrors vars m = Except.ok ves) : ves = invalidErrorsSpec vars m := by
  induction vars generalizing ves with
  | nil =>
    simp only [variableErrors] at h
    rw [← Except.ok.inj h]
    rfl
  | cons v0 rest ih =>
    simp only [variableErrors] at h
    cases hl : m.lookup v0.name with
    | none =>
      rw [hl] at h
      dsimp only at h
      have hoff : offends m v0 = false := by simp [offends, hl]
      have hrest := ih ves h
      rw [hrest]
      simp [invalidErrorsSpec, List.filter_cons, hoff]
    | some v1 =>
      rw [hl] at h
      dsimp only at h
      cases hvv : validateVariable v0 v1 with
      | error e =>
        rw [hvv] at h
        exact absurd h (by simp)
      | ok c0 =>
        rw [hvv] at h
        dsimp only at h
        cases hre : variableErrors rest m with
        | error e =>
          rw [hre] at h
          exact absurd h (by simp)
        | ok others =>
          rw [hre] at h
          dsimp only at h
          have hoth := ih others hre
          by_cases hcv : c0.isValid = true
          · rw [if_pos hcv] at h
            have hves : others = ves := Except.ok.inj h
            have hoff : offends m v0 = false := by simp [offends, hl, hvv, hcv]
            rw [← hves, hoth]
            simp [invalidErrorsSpec, List.filter_cons, hoff]
          · rw [if_neg hcv] at h
            have hves : invError v0.name (c0.message.getD "") :: others = ves := Except.ok.inj h
            have hoff : offends m v0 = true := by
              simp [offends, hl, hvv]
              exact Bool.not_eq_true c0.isValid ▸ (by simpa using hcv)
            have hmsg : offenderMsg m v0 = c0.message.getD "" := by simp [offenderMsg, hl, hvv]
            rw [← hves, hoth]
            simp [invalidErrorsSpec, List.filter_cons, hoff, hmsg, invError]

/-- A valid report from the validation core means both that no required
variable was missing and that the per-variable loop collected no error. -/
theorem validateTemplateCore_valid (t : TemplateDoc) (m : VarMap) (r : ValidationReport)
    (h : validateTemplateCore t m = Except.ok r) (hv : r.isValid = true) :
    missingRequired t.vars m = [] ∧ variableErrors t.vars m = Except.ok [] := by
  simp only [validateTemplateCore] at h
  cases he : variableErrors t.vars m with
  | error e =>
    rw [he] at h
    exact absurd h (by simp)
  | ok ves =>
    rw [he] at h
    dsimp only at h
    by_cases hm : missingRequired t.vars m = []
    · rw [if_pos hm] at h
      simp only [List.nil_append] at h
      by_cases hves : ves = []
      · exact ⟨hm, by rw [hves]⟩
      · rw [if_neg hves] at h
        have hr := Except.ok.inj h
        rw [← hr] at hv
        simp at hv
    · rw [if_neg hm] at h
      rw [if_neg (by simp only [List.singleton_append]; exact List.cons_ne_nil _ _)] at h
      have hr := Except.ok.inj h
      rw [← hr] at hv
      simp at hv

/-- C7 counterexample: the claim says a string value is accepted only if
the ENTIRE value matches the declared pattern; the source accepts the
value ba against the pattern a although ba is not a full match, because
RegExp.test performs a substring search. -/
theorem c7_counterexample :
    validateVariable specPatternA (Value.str "ba") = Except.ok okCheck ∧
    litFullMatch "a" "ba" = false :=
  ⟨rfl, rfl⟩

/-- C7 (amended): for a string-typed spec with a declared pattern, an
accepted value is one in which the pattern occurs somewhere (substring
semantics, not a full match); declared minLength bounds hold, and
declared maxLength bounds hold whenever the bound is nonzero. -/
theorem c7_amended (spec : VariableSpec) (p s : String) (c : VarCheck)
    (ht : spec.type = VarType.string) (hp : spec.validation.pattern = some p)
    (h : validateVariable spec (Value.str s) = Except.ok c) (hv : c.isValid = true) :
    substrOccurs p s = true ∧
    (∀ n, spec.validation.minLength = some n → n ≤ s.length) ∧
    (∀ n, spec.validation.maxLength = some n → n ≠ 0 → s.length ≤ n) := by
  obtain ⟨nm, ty, rq, dv, v⟩ := spec
  dsimp only at ht hp h
  subst ht
  have hs := vv_string_case nm rq dv v s c h hv
  exact ⟨hs.1 p hp, hs.2.1, hs.2.2.1⟩

/-- C7 witness: the amended statement at a concrete accepted value. -/
theorem c7_witness :
    substrOccurs "ng" "nginx" = true ∧
    (∀ n, (some 2 : Option Nat) = some n → n ≤ "nginx".length) ∧
    (∀ n, (some 10 : Option Nat) = some n → n ≠ 0 → "nginx".length ≤ n) :=
  c7_amended
    { name := "img", type := VarType.string,
      validation := { pattern := some "ng", minLength := some 2, maxLength := some 10 } }
    "ng" "nginx" okCheck rfl rfl rfl rfl

/-- C8 counterexample: the claim says the per-variable validator never
throws; on a spec whose validation.pattern is the invalid regular
expression consisting of a lone opening bracket, the RegExp construction
inside the string case raises a SyntaxError. -/
theorem c8_counterexample :
    validateVariable specBadPattern (Value.str "x") =
      Except.error "SyntaxError: Invalid regular expression" :=
  rfl

/-- C8 (amended): the per-variable validator is total and returns a
result record, never raising, for every spec whose declared pattern, if
any, is a well-formed regular expression (of the modelled
metacharacter-free fragment); every validation failure is then data in
the returned record. -/
theorem c8_amended (spec : VariableSpec) (value : Value)
    (hp : ∀ p, spec.validation.pattern = some p → litPattern p = true) :
    ∃ c, validateVariable spec value = Except.ok c := by
  obtain ⟨nm, ty, rq, dv, v⟩ := spec
  obtain ⟨pat, minL, maxL, minI, maxI, en⟩ := v
  dsimp only at hp
  cases ty with
  | string =>
    cases value with
    | str s =>
      simp only [validateVariable]
      by_cases hmin : (Option.getD minL 0 ≠ 0 ∧ s.length < Option.getD minL 0)
      · rw [if_pos hmin]
        exact ⟨_, rfl⟩
      · rw [if_neg hmin]
        by_cases hmax2 : (Option.getD maxL 0 ≠ 0 ∧ Option.getD maxL 0 < s.length)
        · rw [if_pos hmax2]
          exact ⟨_, rfl⟩
        · rw [if_neg hmax2]
          cases pat with
          | none => exact ⟨_, rfl⟩
          | some p =>
            dsimp only
            by_cases hpe : p = ""
            · rw [if_pos hpe]
              exact ⟨_, rfl⟩
            · rw [if_neg hpe]
              have hcomp : jsRegexCompile p = some p := by
                simp [jsRegexCompile, hp p rfl]
              rw [hcomp]
              dsimp only
              by_cases hocc : substrOccurs p s = true
              · rw [if_pos hocc]
                exact ⟨_, rfl⟩
              · rw [if_neg hocc]
                exact ⟨_, rfl⟩
    | null => exact ⟨_, rfl⟩
    | bool b => exact ⟨_, rfl⟩
    | num n => exact ⟨_, rfl⟩
    | arr xs => exact ⟨_, rfl⟩
    | obj fs => exact ⟨_, rfl⟩
  | number =>
    cases value with
    | num n =>
      simp only [validateVariable]
      cases minI with
      | some m =>
        dsimp only
        by_cases hlt : n < m
        · rw [if_pos hlt]
          exact ⟨_, rfl⟩
        · rw [if_neg hlt]
          exact ⟨_, rfl⟩
      | none => exact ⟨_, rfl⟩
    | null => exact ⟨_, rfl⟩
    | bool b => exact ⟨_, rfl⟩
    | str s => exact ⟨_, rfl⟩
    | arr xs => exact ⟨_, rfl⟩
    | obj fs => exact ⟨_, rfl⟩
  | boolean => cases value <;> exact ⟨_, rfl⟩
  | array => cases value <;> exact ⟨_, rfl⟩
  | object => cases value <;> exact ⟨_, rfl⟩

/-- C8 witness: totality at a concrete spec with a well-formed pattern. -/
theorem c8_witness : ∃ c, validateVariable specPatternA (Value.str "hello") = Except.ok c :=
  c8_amended specPatternA (Value.str "hello")
    (fun p hpp => by rw [← Option.some.inj hpp]; rfl)

/-- C2 counterexample: on the image-tag scenario the render output does
not contain nginx:latest; the unsupplied tag variable renders as the
empty string because the source applies the raw caller map with no
defaultValue fallback. -/
theorem c2_counterexample :
    hbCompileRender c2Body c2Vars = Except.ok c2Out ∧
    substrOccurs "nginx:latest" c2Out = false :=
  ⟨rfl, rfl⟩

/-- C2 (amended): substitution input is the caller map alone, with no
overlay of per-spec defaults: a variable absent from the map renders as
the empty string even when its spec declares a defaultValue. On the
image-tag scenario the substituted text therefore contains nginx: with
an empty tag, not nginx:latest, and generate then fails the structural
YAML check instead of returning the text. -/
theorem c2_amended :
    (∀ (ctx : VarMap) (n : String), ctx.lookup n = none → hbSubst ctx n = "") ∧
    hbCompileRender c2Body c2Vars = Except.ok c2Out ∧
    substrOccurs "nginx:" c2Out = true ∧
    substrOccurs "nginx:latest" c2Out = false ∧
    generateDockerCompose "tpl" c2Vars c2State =
      (Except.error (TemplateErr.invalidYaml "Invalid Docker Compose YAML"), c2State) := by
  refine ⟨?_, rfl, rfl, rfl, rfl⟩
  intro ctx n h
  simp [hbSubst, h]

/-- C2 witness: the absent-variable clause at a concrete map. -/
theorem c2_witness : hbSubst [] "tag" = "" :=
  c2_amended.1 [] "tag" rfl

/-- C10: whenever generateDockerCompose fails, at any stage, the state is
returned unchanged: the usage-counter update is fired only after the
structural check of the output has succeeded, so a failed generate never
increments usage.downloadCount or touches usage.lastUsed. -/
theorem c10_no_usage_on_failure (id : String) (m : VarMap) (s : ServiceState) (e : TemplateErr)
    (h : (generateDockerCompose id m s).1 = Except.error e) :
    (generateDockerCompose id m s).2 = s := by
  unfold generateDockerCompose at h ⊢
  cases hid : s.store.lookup id with
  | none => rfl
  | some t =>
    rw [hid] at h
    dsimp only at h ⊢
    by_cases hgate : (t.isPublic && t.isActive) = true
    · rw [if_pos hgate] at h ⊢
      cases hg : generatePure t m with
      | ok out =>
        rw [hg] at h
        exact absurd h (by simp)
      | error e2 => rfl
    · rw [if_neg hgate]

/-- C10 witness: a failed generate (missing required variable) at a
concrete store leaves the state unchanged. -/
theorem c10_witness : (generateDockerCompose "tpl" [] c2State).2 = c2State :=
  c10_no_usage_on_failure "tpl" [] c2State
    (TemplateErr.variableValidation ["Required variable image is missing"]) rfl

/-- C1 counterexample: the claim says a report with isValid true implies
every supplied declared variable satisfies its declared constraints,
where the specification defines pattern satisfaction as a full match of
the whole value; the validator reports the map valid although the value
ba does not fully match the declared pattern a. -/
theorem c1_counterexample :
    validateTemplateCore c1Template c1Map = Except.ok { isValid := true, errors := [] } ∧
    specPatternA ∈ c1Template.vars ∧
    c1Map.lookup specPatternA.name = some (Value.str "ba") ∧
    specSatisfies specPatternA (Value.str "ba") = false :=
  ⟨rfl, List.mem_singleton.mpr rfl, rfl, rfl⟩

/-- C1 (amended): if the validation core reports isValid true then every
required declared variable is present in the map, and every supplied
declared variable satisfies its declared type and constraints in the
substring reading of pattern constraints, provided no declared maximum
length is zero (the source skips a zero maximum, zero being falsy). -/
theorem c1_amended (t : TemplateDoc) (m : VarMap) (r : ValidationReport)
    (hr : validateTemplateCore t m = Except.ok r) (hv : r.isValid = true)
    (hmax : ∀ spec ∈ t.vars, spec.validation.maxLength ≠ some 0) :
    (∀ spec ∈ t.vars, spec.required = true → (m.lookup spec.name).isSome = true) ∧
    (∀ spec ∈ t.vars, ∀ value, m.lookup spec.name = some value →
      specSatisfiesSub spec value = true) := by
  obtain ⟨hmiss, herrs⟩ := validateTemplateCore_valid t m r hr hv
  refine ⟨missingRequired_nil t.vars m hmiss, ?_⟩
  intro spec hmem value hval
  obtain ⟨c, hc, hcv⟩ := variableErrors_ok_nil t.vars m herrs spec hmem value hval
  exact validateVariable_sound spec value c hc hcv (hmax spec hmem)

/-- C1 witness: the amended statement at the concrete pattern-a template
and its accepted map. -/
theorem c1_witness :
    (∀ spec ∈ c1Template.vars, spec.required = true →
      (c1Map.lookup spec.name).isSome = true) ∧
    (∀ spec ∈ c1Template.vars, ∀ value, c1Map.lookup spec.name = some value →
      specSatisfiesSub spec value = true) :=
  c1_amended c1Template c1Map { isValid := true, errors := [] } rfl rfl (by decide)

/-- C5: with at least one required variable absent, the validation core
returns an invalid report whose error list is exactly one aggregated
missing_variables error carrying all absent names, followed by one
invalid_variable error per offending supplied variable (in declaration
order, each carrying the variable name) — validation does not stop at
the first failure. -/
theorem c5_aggregation (t : TemplateDoc) (m : VarMap) (ves : List ValError)
    (h1 : missingRequired t.vars m ≠ [])
    (h2 : variableErrors t.vars m = Except.ok ves) :
    validateTemplateCore t m =
      Except.ok { isValid := false,
                  errors := mvError (missingRequired t.vars m) :: invalidErrorsSpec t.vars m } := by
  have hves := variableErrors_ok_eq t.vars m ves h2
  simp only [validateTemplateCore, h2]
  rw [if_neg h1]
  rw [if_neg (by simp only [List.singleton_append]; exact List.cons_ne_nil _ _)]
  rw [hves]
  simp only [List.singleton_append]

/-- C5 witness: the aggregation scenario produces one missing_variables
error listing both absent names plus one invalid_variable error. -/
theorem c5_witness :
    validateTemplateCore c5Template c5Map =
      Except.ok { isValid := false,
                  errors := mvError (missingRequired c5Template.vars c5Map) ::
                    invalidErrorsSpec c5Template.vars c5Map } :=
  c5_aggregation c5Template c5Map [invError "port" "Must be at least 1024"] (by decide) rfl

/-- C4 counterexample: the claim says generate fails whenever the schema
validator would report the map invalid; the supplied port 80 violates
its declared minimum (the validator rejects it and the validate report
is invalid), yet generate renders and returns the output, because the
generation path only checks required-variable presence. -/
theorem c4_counterexample :
    validateVariable c4PortSpec (Value.num 80) =
      Except.ok (invalidMsg "Must be at least 1024") ∧
    validateTemplateCore c4Template c4Map =
      Except.ok { isValid := false, errors := [invError "port" "Must be at least 1024"] } ∧
    (generateDockerCompose "t4" c4Map c4State).1 = Except.ok "version: 80" :=
  ⟨rfl, rfl, rfl⟩

/-- C4 (amended): for an accessible template, generate fails with the
variable-validation error, carrying one aggregated message per absent
required variable and leaving the state unchanged (no render), exactly
when some required variable is missing; when none is missing, the call
never fails with a variable-validation error, regardless of supplied
values violating their declared types or constraints. -/
theorem c4_amended (s : ServiceState) (id : String) (t : TemplateDoc) (m : VarMap)
    (hid : s.store.lookup id = some t) (hp : t.isPublic = true) (ha : t.isActive = true) :
    (missingRequired t.vars m ≠ [] →
      generateDockerCompose id m s =
        (Except.error (TemplateErr.variableValidation (requiredErrors t.vars m)), s)) ∧
    (missingRequired t.vars m = [] →
      ∀ es, (generateDockerCompose id m s).1 ≠
        Except.error (TemplateErr.variableValidation es)) := by
  have hgate : (t.isPublic && t.isActive) = true := by rw [hp, ha]; rfl
  constructor
  · intro hmiss
    have hre : requiredErrors t.vars m ≠ [] := by
      intro hnil
      exact hmiss (List.map_eq_nil_iff.mp hnil)
    have hgp : generatePure t m =
        Except.error (TemplateErr.variableValidation (requiredErrors t.vars m)) := by
      simp only [generatePure, validateTemplateVariables]
      rw [if_neg hre]
    simp only [generateDockerCompose, hid]
    rw [if_pos hgate, hgp]
  · intro hmiss es
    have hre : requiredErrors t.vars m = [] := by simp [requiredErrors, hmiss]
    have hvt : validateTemplateVariables t m = Except.ok () := by
      simp only [validateTemplateVariables]
      rw [if_pos hre]
    simp only [generateDockerCompose, hid]
    rw [if_pos hgate]
    simp only [generatePure, hvt]
    cases hhb : hbCompileRender t.templateContent m with
    | error e => simp
    | ok rendered =>
      cases hy : validateDockerComposeYaml rendered with
      | error e => simp [hy]
      | ok u => simp [hy]

/-- C4 witness: the amended statement at the image-tag template with an
empty caller map (required image missing). -/
theorem c4_witness :
    generateDockerCompose "tpl" [] c2State =
      (Except.error (TemplateErr.variableValidation (requiredErrors c2Template.vars [])), c2State) :=
  (c4_amended c2State "tpl" c2Template [] rfl rfl rfl).1 (by decide)

/-- C6 counterexample: the claim says the structural check passes when
the parsed root mapping has a version key or a services key; the
document consisting of the single line version: parses to a mapping that
HAS a version key (with a null value), yet the validator raises, because
the source tests the truthiness of the values, not the presence of the
keys. -/
theorem c6_counterexample :
    yamlLoad "version:" = some (Yaml.map [("version", Yaml.null)]) ∧
    validateDockerComposeYaml "version:" =
      Except.error "Missing required Docker Compose fields (version or services)" :=
  ⟨rfl, rfl⟩

/-- C6 (amended): the structural check raises exactly when the text
fails to parse, or the parsed root is falsy or not a mapping, or both
the version value and the services value are falsy (a key present with a
null or empty value does not count); and any text returned by generate
passed the structural check, so a raising check never lets the rendered
text reach the caller. -/
theorem c6_amended :
    (∀ content : String,
      (∃ e, validateDockerComposeYaml content = Except.error e) ↔
        (yamlLoad content = none ∨
         ∃ y, yamlLoad content = some y ∧
           (jsTruthyY y = false ∨ isYamlObject y = false ∨
            (truthyField y "version" = false ∧ truthyField y "services" = false)))) ∧
    (∀ (id : String) (m : VarMap) (s : ServiceState) (out : String),
      (generateDockerCompose id m s).1 = Except.ok out →
      validateDockerComposeYaml out = Except.ok ()) := by
  constructor
  · intro content
    cases hy : yamlLoad content with
    | none =>
      constructor
      · intro _
        exact Or.inl rfl
      · intro _
        exact ⟨"Invalid Docker Compose YAML", by simp [validateDockerComposeYaml, hy]⟩
    | some y =>
      simp only [validateDockerComposeYaml, hy]
      by_cases h1 : jsTruthyY y = false
      · rw [if_pos h1]
        constructor
        · intro _
          exact Or.inr ⟨y, rfl, Or.inl h1⟩
        · intro _
          exact ⟨"Invalid YAML structure", rfl⟩
      · rw [if_neg h1]
        by_cases h2 : isYamlObject y = false
        · rw [if_pos h2]
          constructor
          · intro _
            exact Or.inr ⟨y, rfl, Or.inr (Or.inl h2)⟩
          · intro _
            exact ⟨"Invalid YAML structure", rfl⟩
        · rw [if_neg h2]
          by_cases h3 : truthyField y "version" = false ∧ truthyField y "services" = false
          · rw [if_pos h3]
            constructor
            · intro _
              exact Or.inr ⟨y, rfl, Or.inr (Or.inr h3)⟩
            · intro _
              exact ⟨"Missing required Docker Compose fields (version or services)", rfl⟩
          · rw [if_neg h3]
            constructor
            · rintro ⟨e, he⟩
              exact absurd he (by simp)
            · rintro (hnone | ⟨y2, hy2, hcase⟩)
              · exact absurd hnone (by simp)
              · cases Option.some.inj hy2
                rcases hcase with hc | hc | hc
                · exact absurd hc h1
                · exact absurd hc h2
                · exact absurd hc h3
  · intro id m s out hout
    unfold generateDockerCompose at hout
    cases hid : s.store.lookup id with
    | none =>
      rw [hid] at hout
      exact absurd hout (by simp)
    | some t =>
      rw [hid] at hout
      dsimp only at hout
      by_cases hgate : (t.isPublic && t.isActive) = true
      · rw [if_pos hgate] at hout
        cases hg : generatePure t m with
        | error e =>
          rw [hg] at hout
          exact absurd hout (by simp)
        | ok out2 =>
          rw [hg] at hout
          dsimp only at hout
          have hoo : out2 = out := Except.ok.inj hout
          subst hoo
          unfold generatePure at hg
          cases hvt : validateTemplateVariables t m with
          | error e =>
            rw [hvt] at hg
            exact absurd hg (by simp)
          | ok u =>
            rw [hvt] at hg
            dsimp only at hg
            cases hhb : hbCompileRender t.templateContent m with
            | error e =>
              rw [hhb] at hg
              exact absurd hg (by simp)
            | ok rendered =>
              rw [hhb] at hg
              dsimp only at hg
              cases hy2 : validateDockerComposeYaml rendered with
              | error e =>
                rw [hy2] at hg
                exact absurd hg (by simp)
              | ok u2 =>
                rw [hy2] at hg
                dsimp only at hg
                have hro : rendered = out2 := Except.ok.inj hg
                cases u2
                rw [← hro]
                exact hy2
      · rw [if_neg hgate] at hout
        exact absurd hout (by simp)

/-- C6 witness: the malformed scenario document makes the structural
check raise. -/
theorem c6_witness :
    ∃ e, validateDockerComposeYaml "not: valid: yaml: : :" = Except.error e :=
  (c6_amended.1 "not: valid: yaml: : :").mpr (Or.inl rfl)

/-- C9 counterexample: the claim says no core operation other than the
post-render side effect of a successful generate mutates the usage
counters; reading an accessible template by id increments its download
count and stamps its last-used time. -/
theorem c9_counterexample :
    c9Template.usage.downloadCount = 0 ∧
    (getTemplateById "t" c9State).1 = some c9Template ∧
    ((getTemplateById "t" c9State).2.store.lookup "t") =
      some { c9Template with usage := { downloadCount := 1, lastUsed := some 5 } } :=
  ⟨rfl, rfl, rfl⟩

/-- Keyed map update commutes with association lookup: updating the
entry of a key rewrites exactly the looked-up document. -/
theorem lookup_map_keyed (f : TemplateDoc → TemplateDoc) (id : String)
    (store : List (String × TemplateDoc)) (t : TemplateDoc)
    (h : store.lookup id = some t) :
    (store.map (fun p => if p.1 = id then (p.1, f p.2) else p)).lookup id = some (f t) := by
  induction store with
  | nil => simp at h
  | cons hd rest ih =>
    obtain ⟨k, doc⟩ := hd
    dsimp only [List.map]
    by_cases hk : id = k
    · subst hk
      simp only [List.lookup, beq_self_eq_true] at h
      have hdt : doc = t := Option.some.inj h
      subst hdt
      rw [if_pos rfl]
      simp [List.lookup]
    · have hbeq : (id == k) = false := beq_eq_false_iff_ne.mpr hk
      simp only [List.lookup, hbeq] at h
      rw [if_neg (fun hh => hk hh.symm)]
      simp only [List.lookup, hbeq]
      exact ih h

/-- C9 (amended): the usage counters are mutated by the post-render side
effect of a successful generate AND by every successful read of an
accessible template by id (which increments the download count and
stamps the last-used time); the validate operation never changes the
state, and the generation pipeline never reads the usage counters. -/
theorem c9_amended :
    (∀ (id : String) (m : VarMap) (s : ServiceState), (validateTemplateOp id m s).2 = s) ∧
    (∀ (id : String) (s : ServiceState) (t : TemplateDoc),
      s.store.lookup id = some t → t.isPublic = true → t.isActive = true →
      (getTemplateById id s).2 = bumpUsage id s) ∧
    (∀ (id : String) (s : ServiceState) (t : TemplateDoc),
      s.store.lookup id = some t →
      ((bumpUsage id s).store.lookup id) =
        some { t with usage := { t.usage with
          downloadCount := t.usage.downloadCount + 1, lastUsed := some s.now } }) ∧
    (∀ (t : TemplateDoc) (u : Usage) (m : VarMap),
      generatePure { t with usage := u } m = generatePure t m) ∧
    (∀ (id : String) (m : VarMap) (s : ServiceState) (out : String),
      (generateDockerCompose id m s).1 = Except.ok out →
      (generateDockerCompose id m s).2 = bumpUsage id s) := by
  refine ⟨?_, ?_, ?_, ?_, ?_⟩
  · intro id m s
    unfold validateTemplateOp
    cases hid : s.store.lookup id with
    | none => rfl
    | some t =>
      dsimp only
      by_cases hgate : (t.isPublic && t.isActive) = true
      · rw [if_pos hgate]
        cases validateTemplateCore t m <;> rfl
      · rw [if_neg hgate]
  · intro id s t hid hp ha
    unfold getTemplateById
    rw [hid]
    dsimp only
    rw [if_pos (by rw [hp, ha]; rfl)]
  · intro id s t hid
    simp only [bumpUsage]
    exact lookup_map_keyed
      (fun d => { d with usage := { d.usage with
        downloadCount := d.usage.downloadCount + 1, lastUsed := some s.now } })
      id s.store t hid
  · intro t u m
    rfl
  · intro id m s out hout
    unfold generateDockerCompose at hout ⊢
    cases hid : s.store.lookup id with
    | none =>
      rw [hid] at hout
      exact absurd hout (by simp)
    | some t =>
      rw [hid] at hout
      dsimp only at hout ⊢
      by_cases hgate : (t.isPublic && t.isActive) = true
      · rw [if_pos hgate] at hout ⊢
        cases hg : generatePure t m with
        | error e =>
          rw [hg] at hout
          exact absurd hout (by simp)
        | ok out2 => rfl
      · rw [if_neg hgate] at hout
        exact absurd hout (by simp)

/-- C9 witness: the amended statement at the concrete one-template
store: the read-by-id path fires the counter bump. -/
theorem c9_witness : (getTemplateById "t" c9State).2 = bumpUsage "t" c9State :=
  c9_amended.2.1 "t" c9State c9Template rfl rfl rfl

/-- Literal text free of braces is copied through the renderer
unchanged, prefixing whatever the rest of the body renders to. -/
theorem hbRun_lit_append (ctx : VarMap) (l tail : List Char) (h : braceFreeL l = true) :
    hbRun ctx none (l ++ tail) = (hbRun ctx none tail).map (fun out => l ++ out) := by
  induction l with
  | nil =>
    simp only [List.nil_append]
    cases hbRun ctx none tail <;> rfl
  | cons c cs ih =>
    simp only [braceFreeL, List.all_cons, Bool.and_eq_true, bne_iff_ne] at h
    obtain ⟨⟨hc1, hc2⟩, hcs⟩ := h
    have hcsb : braceFreeL cs = true := by
      simp only [braceFreeL]
      exact hcs
    rw [List.cons_append]
    cases hct : cs ++ tail with
    | nil =>
      obtain ⟨h1, h2⟩ := List.append_eq_nil.mp hct
      subst h1
      subst h2
      rfl
    | cons d ds =>
      simp only [hbRun]
      rw [if_neg (fun hcontra => hc1 hcontra.1)]
      rw [← hct, ih hcsb]
      cases hbRun ctx none tail <;> rfl

/-- Brace-free text renders as itself. -/
theorem hbRun_lit (ctx : VarMap) (l : List Char) (h : braceFreeL l = true) :
    hbRun ctx none l = Except.ok l := by
  have ha := hbRun_lit_append ctx l [] h
  rw [List.append_nil] at ha
  rw [ha]
  show Except.ok (l ++ []) = Except.ok l
  rw [List.append_nil]

/-- C3 counterexample: the claim says an unrecognized placeholder is
preserved as literal text; rendering a body containing the undeclared
placeholder with an empty variable map yields xy, with the placeholder
replaced by the empty string and the literal text gone. -/
theorem c3_counterexample :
    hbCompileRender "x{{unknown_var}}y" [] = Except.ok "xy" ∧
    substrOccurs "{{unknown_var}}" "xy" = false :=
  ⟨rfl, rfl⟩

/-- C3 (amended): a placeholder whose name is absent from the variable
map — in particular one not declared in the template and not supplied —
is replaced by the empty string, not preserved as literal text, and this
is not an error condition: for any brace-free surrounding text, the body
renders to the surrounding text with the placeholder deleted. -/
theorem c3_amended (ctx : VarMap) (pre suf : List Char)
    (hpre : braceFreeL pre = true) (hsuf : braceFreeL suf = true)
    (hctx : ctx.lookup "unknown_var" = none) :
    hbCompileRender (String.mk (pre ++ ("{{unknown_var}}".toList ++ suf))) ctx =
      Except.ok (String.mk (pre ++ suf)) := by
  simp only [hbCompileRender]
  have htl : (String.mk (pre ++ ("{{unknown_var}}".toList ++ suf))).toList =
      pre ++ ("{{unknown_var}}".toList ++ suf) := rfl
  rw [htl, hbRun_lit_append ctx pre _ hpre]
  have hmid : hbRun ctx none ("{{unknown_var}}".toList ++ suf) = Except.ok suf := by
    have hstep : hbRun ctx none ("{{unknown_var}}".toList ++ suf) =
        (match hbRun ctx none suf with
         | Except.ok out => Except.ok ((hbSubst ctx "unknown_var").toList ++ out)
         | Except.error e => Except.error e) := rfl
    rw [hstep, hbRun_lit ctx suf hsuf]
    simp [hbSubst, hctx]
  rw [hmid]
  rfl

/-- C3 witness: the amended statement at concrete surrounding text and
the empty map. -/
theorem c3_witness :
    hbCompileRender (String.mk ("x".toList ++ ("{{unknown_var}}".toList ++ "y".toList))) [] =
      Except.ok (String.mk ("x".toList ++ "y".toList)) :=
  c3_amended [] "x".toList "y".toList rfl rfl rfl
